import Mathlib

/-!
Shallow embedding of the compliance / assembly core of the
hawaii-family-court-legal-automation repository, together with theorems
checking the specification's claims against it.

Embedded modules:
* `automation-engine/evidence_aware_drafter.py`  (evidence registry, drafter)
* `automation-engine/jurisdiction_registry.py`   (court profiles, compliance validator)
* `automation-engine/multi_model_fileboss.py`    (model router)

Conventions of the embedding:
* Python dicts are association lists with upsert (replace-in-place keeps the
  key's position, otherwise append), which matches insertion-ordered dicts.
* Python truthiness of optional strings / lists is made explicit
  (`none`, `some ""` and `some []` are falsy).
* A raised `ValueError` is an `Except.error` carrying the data interpolated
  into the Python message (the missing-id list and the 50-character content
  preview).
* Floating point numbers in the source are only ever compared or copied,
  never combined arithmetically, so they are embedded as rationals with the
  same literal values (order-preserving).
-/

namespace LegalAuto

set_option maxRecDepth 8192

/-- Generic upsert on an association list, mirroring a Python dict
assignment: an existing key keeps its position and gets the new value,
a new key is appended at the end. -/
def upsertAssoc {α : Type} : List (String × α) → String → α → List (String × α)
  | [], k, v => [(k, v)]
  | (k1, v1) :: rest, k, v =>
    if k1 = k then (k, v) :: rest else (k1, v1) :: upsertAssoc rest k v

/-- First-match lookup on an association list, mirroring Python `dict.get`. -/
def lookupAssoc {α : Type} : List (String × α) → String → Option α
  | [], _ => none
  | (k1, v1) :: rest, k => if k1 = k then some v1 else lookupAssoc rest k

/-- `EvidenceSource` dataclass from `evidence_aware_drafter.py`
(the unused `file_path` field is kept as a plain string option). -/
structure EvidenceSource where
  source_id : String
  description : String
  file_path : Option String
  page_numbers : Option (List Int)
  exhibit_number : Option String
deriving DecidableEq, Repr

/-- `Citation` dataclass: paragraph text, cited evidence ids, and the
location marker (set to `len(content)` by `draft_paragraph`). -/
structure Citation where
  text : String
  evidence_ids : List String
  location : Nat
deriving DecidableEq, Repr

/-- `EvidenceRegistry`: keyed store of evidence, a Python dict keyed by
`source_id`. -/
structure EvidenceRegistry where
  evidence : List (String × EvidenceSource)
deriving DecidableEq, Repr

/-- `EvidenceRegistry.register`: upsert by `source_id`. -/
def EvidenceRegistry.register (r : EvidenceRegistry) (e : EvidenceSource) :
    EvidenceRegistry :=
  ⟨upsertAssoc r.evidence e.source_id e⟩

/-- `EvidenceRegistry.get`: retrieve evidence by id, absent gives `none`. -/
def EvidenceRegistry.get (r : EvidenceRegistry) (source_id : String) :
    Option EvidenceSource :=
  lookupAssoc r.evidence source_id

/-- `EvidenceRegistry.validate_citations`: every id is checked (not
fail-fast); returns the validity flag and the ordered list of missing ids. -/
def EvidenceRegistry.validate_citations (r : EvidenceRegistry)
    (citation_ids : List String) : Bool × List String :=
  let missing := citation_ids.filter (fun cid => (r.get cid).isNone)
  (missing.length == 0, missing)

/-- Fragment list for the exhibit label of one evidence source:
`"Ex. <label>"` when the label is present and non-empty (Python truthiness
of the optional string). -/
def labelFragment : Option String → List String
  | none => []
  | some s => if s = "" then [] else ["Ex. " ++ s]

/-- Fragment list for the page numbers of one evidence source:
`"p. <n>"` for a single page, `"pp. <first>-<last>"` for several, nothing
when pages are absent or the list is empty (Python truthiness). -/
def pagesFragment : Option (List Int) → List String
  | none => []
  | some [] => []
  | some [p] => ["p. " ++ toString p]
  | some (p :: q :: rest) =>
    ["pp. " ++ toString p ++ "-" ++ toString ((q :: rest).getLastD 0)]

/-- Per-evidence citation fragment: label and pages fragments joined
with a comma (`", ".join(cite_parts)` in the source). -/
def citeFragment (e : EvidenceSource) : String :=
  String.intercalate ", " (labelFragment e.exhibit_number ++ pagesFragment e.page_numbers)

/-- `EvidenceAwareDrafter` state: the registry it was built over and the
append-only citation log. -/
structure EvidenceAwareDrafter where
  registry : EvidenceRegistry
  citations : List Citation
deriving DecidableEq, Repr

/-- `_format_citations`: empty id list gives the empty string; otherwise
each resolvable id contributes its fragment (unresolvable ids are skipped
by the `if evidence:` guard), fragments joined with `"; "` and wrapped in
parentheses. -/
def format_citations (reg : EvidenceRegistry) (evidence_ids : List String) :
    String :=
  if evidence_ids = [] then ""
  else
    let citations := evidence_ids.filterMap (fun eid => (reg.get eid).map citeFragment)
    "(" ++ String.intercalate "; " citations ++ ")"

/-- Shared success tail of `draft_paragraph`: format the suffix, append
the `Citation` record (location = `len(content)`), and return
`f"{content} {citation_text}"`. -/
def draftBody (d : EvidenceAwareDrafter) (content : String)
    (evidence_ids : List String) : String × EvidenceAwareDrafter :=
  let citation_text := format_citations d.registry evidence_ids
  let c : Citation := ⟨content, evidence_ids, content.length⟩
  (content ++ " " ++ citation_text, ⟨d.registry, d.citations ++ [c]⟩)

/-- Errors raised by `draft_paragraph` (both are `ValueError` in Python;
the payloads are the data interpolated into the message: the missing-id
list and the truncated 50-character content preview). -/
inductive DraftError where
  | MissingEvidence : String → DraftError
  | UnknownEvidence : List String → String → DraftError
deriving DecidableEq, Repr

/-- `draft_paragraph`: when citation is required, an empty id list raises
`MissingEvidence` and a failed registry validation raises
`UnknownEvidence` with the missing ids; otherwise the paragraph is
formatted, the citation recorded, and the suffixed text returned. -/
def EvidenceAwareDrafter.draft_paragraph (d : EvidenceAwareDrafter)
    (content : String) (evidence_ids : List String) (require_citation : Bool) :
    Except DraftError (String × EvidenceAwareDrafter) :=
  if require_citation then
    if evidence_ids = [] then
      .error (.MissingEvidence (content.take 50))
    else
      let vr := d.registry.validate_citations evidence_ids
      if vr.1 then .ok (draftBody d content evidence_ids)
      else .error (.UnknownEvidence vr.2 (content.take 50))
  else .ok (draftBody d content evidence_ids)

/-- A match produced by the claim-pattern scan of
`EvidenceAwareDrafter.validate_document`: start offset (`match.start()`)
and matched substring (`match.group()`). The regex engine is not embedded;
the scan-order list of matches over the four claim patterns is taken as an
input of the embedded function. -/
structure ClaimMatch where
  start : Nat
  text : String
deriving DecidableEq, Repr

/-- Nearby-citation test of the scanner: some recorded citation's
`location` lies within 200 characters of the match position. -/
def has_nearby_citation (citations : List Citation) (pos : Nat) : Bool :=
  citations.any (fun c => ((c.location : Int) - (pos : Int)).natAbs < 200)

/-- `EvidenceAwareDrafter.validate_document`: keeps, in scan order, the
matched substrings with no nearby citation, and flags the document valid
when that list is empty. -/
def EvidenceAwareDrafter.validate_document (d : EvidenceAwareDrafter)
    (ms : List ClaimMatch) : Bool × List String :=
  let uncited_claims := (ms.filter
      (fun m => !(has_nearby_citation d.citations m.start))).map (fun m => m.text)
  (uncited_claims.length == 0, uncited_claims)

/-- One step of the exhibit-collection loop: a cited id that resolves to
evidence with a truthy (non-empty) exhibit label writes
`exhibits[label] = evidence` into the dict. -/
def exhibitStep (reg : EvidenceRegistry)
    (acc : List (String × EvidenceSource)) (eid : String) :
    List (String × EvidenceSource) :=
  match reg.get eid with
  | some ev =>
    match ev.exhibit_number with
    | some l => if l = "" then acc else upsertAssoc acc l ev
    | none => acc
  | none => acc

/-- The `exhibits` dict built by `generate_exhibit_list`: the nested loop
over recorded citations and their evidence ids. -/
def buildExhibits (d : EvidenceAwareDrafter) : List (String × EvidenceSource) :=
  d.citations.foldl
    (fun acc citation => citation.evidence_ids.foldl (exhibitStep d.registry) acc) []

/-- Keys of an association list, in insertion order (Python `dict.keys()`). -/
def assocKeys {α : Type} (l : List (String × α)) : List String :=
  l.map (fun p => p.1)

/-- `generate_exhibit_list`: LaTeX list with one entry per exhibit label,
labels sorted ascending (Python `sorted`, embedded as an insertion sort,
extensionally equal on the duplicate-free key list). -/
def EvidenceAwareDrafter.generate_exhibit_list (d : EvidenceAwareDrafter) :
    String :=
  let exhibits := buildExhibits d
  let header := "\\section*\x7bExhibits\x7d\n\\begin\x7benumerate\x7d"
  let entries := (List.insertionSort (fun a b => a ≤ b) (assocKeys exhibits)).map
    (fun k => "  \\item Exhibit " ++ k ++ ": " ++
      (((lookupAssoc exhibits k).map (fun e => e.description)).getD ""))
  String.intercalate "\n" ([header] ++ entries ++ ["\\end\x7benumerate\x7d"])

/-- Court hierarchy levels (`CourtLevel` enum). -/
inductive CourtLevel where
  | STATE_FAMILY
  | STATE_DISTRICT
  | STATE_SUPREME
  | FEDERAL_DISTRICT
  | FEDERAL_CIRCUIT
  | FEDERAL_SUPREME
deriving DecidableEq, Repr

/-- `FormattingRules` dataclass; the float fields are rationals. -/
structure FormattingRules where
  font_family : String
  font_size : Nat
  line_spacing : ℚ
  margin_top : ℚ
  margin_bottom : ℚ
  margin_left : ℚ
  margin_right : ℚ
  page_number_location : String
deriving DecidableEq, Repr

/-- `CitationRules` dataclass. -/
structure CitationRules where
  case_citation_format : String
  statute_citation_format : String
  pin_cite_required : Bool
  short_form_rules : List (String × String)
deriving DecidableEq, Repr

/-- `FilingRules` dataclass. -/
structure FilingRules where
  max_pages : Option Nat
  certificate_of_service_required : Bool
  verification_required : Bool
  exhibits_must_be_labeled : Bool
  table_of_contents_required_pages : Option Nat
  table_of_authorities_required : Bool
deriving DecidableEq, Repr

/-- `CourtProfile` dataclass. The open `special_rules` dict is only ever
queried for truthiness of its values, so values are embedded as their
truthiness (non-boolean truthy values such as rule-name strings become
`true`). -/
structure CourtProfile where
  court_id : String
  court_name : String
  court_level : CourtLevel
  jurisdiction : String
  formatting : FormattingRules
  citations : CitationRules
  filing : FilingRules
  special_rules : List (String × Bool)
deriving DecidableEq, Repr

/-- `JurisdictionRegistry`: dict of court profiles keyed by `court_id`. -/
structure JurisdictionRegistry where
  profiles : List (String × CourtProfile)
deriving DecidableEq, Repr

/-- `register_profile`: upsert by `court_id`. -/
def JurisdictionRegistry.register_profile (r : JurisdictionRegistry)
    (p : CourtProfile) : JurisdictionRegistry :=
  ⟨upsertAssoc r.profiles p.court_id p⟩

/-- `get_profile`: retrieve a court profile by id. -/
def JurisdictionRegistry.get_profile (r : JurisdictionRegistry)
    (court_id : String) : Option CourtProfile :=
  lookupAssoc r.profiles court_id

/-- `list_courts`: registered court ids in insertion order. -/
def JurisdictionRegistry.list_courts (r : JurisdictionRegistry) : List String :=
  assocKeys r.profiles

/-- Hawaii Family Court default profile from `_load_default_profiles`. -/
def hiFamilyProfile : CourtProfile :=
  { court_id := "hi_family"
    court_name := "Hawaii Family Court"
    court_level := .STATE_FAMILY
    jurisdiction := "Hawaii"
    formatting :=
      ⟨"Times New Roman", 12, 2, 1, 1, 1, 1, "bottom center"⟩
    citations := ⟨"Bluebook", "Hawaii Revised Statutes", true, []⟩
    filing := ⟨none, true, true, true, some 25, false⟩
    special_rules :=
      [("caption_format", true), ("signature_block_required", true),
       ("pro_se_notice_required", true)] }

/-- Northern District of California default profile. -/
def candProfile : CourtProfile :=
  { court_id := "cand"
    court_name := "United States District Court for the Northern District of California"
    court_level := .FEDERAL_DISTRICT
    jurisdiction := "California (Northern District)"
    formatting :=
      ⟨"Times New Roman", 12, 2, 1, 1, 1, 1, "bottom center"⟩
    citations := ⟨"Bluebook", "U.S.C.", true, []⟩
    filing := ⟨some 25, true, false, true, some 25, true⟩
    special_rules :=
      [("ecf_filing_required", true), ("local_rules_apply", true),
       ("civil_lr_compliance", true)] }

/-- Ninth Circuit default profile. -/
def ca9Profile : CourtProfile :=
  { court_id := "ca9"
    court_name := "United States Court of Appeals for the Ninth Circuit"
    court_level := .FEDERAL_CIRCUIT
    jurisdiction := "Ninth Circuit"
    formatting :=
      ⟨"Century Schoolbook", 14, 2, 1, 1, 1, 1, "bottom center"⟩
    citations := ⟨"Bluebook", "U.S.C.", true, []⟩
    filing := ⟨some 14000, true, false, true, some 1, true⟩
    special_rules :=
      [("word_count_limit", true), ("certificate_of_compliance_required", true),
       ("separate_volume_for_excerpts", true)] }

/-- Registry state after `__init__` ran `_load_default_profiles`. -/
def defaultJurisdictionRegistry : JurisdictionRegistry :=
  (((⟨[]⟩ : JurisdictionRegistry).register_profile hiFamilyProfile).register_profile
      candProfile).register_profile ca9Profile

/-- Substring test, mirroring the Python `in` operator on strings. -/
def strContains (hay pat : String) : Bool :=
  decide (List.IsInfix pat.data hay.data)

/-- Python `str()` of the float values appearing in court profiles (every
value used by the repository is a whole or half number). -/
def pyFloatStr (q : ℚ) : String :=
  if q.den = 1 then toString q.num ++ ".0"
  else toString (q.num / 2) ++ ".5"

/-- A single-quote character, used inside generated violation messages. -/
def sqm : String :=
  String.singleton (Char.ofNat 39)

/-- `_check_formatting`: font directive and line-spacing marker must occur
verbatim; each absence is one violation (fields are guarded by Python
truthiness: empty font name or zero spacing disables the check). -/
def check_formatting (content : String) (rules : FormattingRules) :
    List String :=
  (if rules.font_family ≠ "" ∧
      ¬ strContains content ("\\setmainfont\x7b" ++ rules.font_family ++ "\x7d") then
    ["Required font " ++ sqm ++ rules.font_family ++ sqm ++ " not specified"]
  else []) ++
  (if rules.line_spacing ≠ 0 ∧
      ¬ strContains content ("\\" ++ pyFloatStr rules.line_spacing) then
    ["Required line spacing " ++ pyFloatStr rules.line_spacing ++ " not set"]
  else [])

/-- `_check_filing_rules`: case-insensitive keyword checks, each enabled by
its profile flag. -/
def check_filing_rules (content : String) (rules : FilingRules) :
    List String :=
  (if rules.certificate_of_service_required ∧
      ¬ strContains content.toLower "certificate of service" then
    ["Certificate of Service required but not found"]
  else []) ++
  (if rules.verification_required ∧
      ¬ strContains content.toLower "verification" then
    ["Verification required but not found"]
  else []) ++
  (if rules.table_of_authorities_required ∧
      ¬ strContains content.toLower "table of authorities" then
    ["Table of Authorities required but not found"]
  else [])

/-- `_check_special_rules`: pro-se notice and certificate-of-compliance
keyword checks, each enabled by its special-rules flag. -/
def check_special_rules (content : String) (rules : List (String × Bool)) :
    List String :=
  (if (lookupAssoc rules "pro_se_notice_required").getD false ∧
      ¬ strContains content.toLower "pro se" then
    ["Pro se notice may be required for self-represented litigants"]
  else []) ++
  (if (lookupAssoc rules "certificate_of_compliance_required").getD false ∧
      ¬ strContains content.toLower "certificate of compliance" then
    ["Certificate of Compliance required but not found"]
  else [])

/-- `ComplianceValidator.validate_document`: the document is passed as
`Option String`, standing for `path.read_text() if path.exists() else ""`;
an unregistered court id yields the fatal report before the document is
touched, otherwise the three check families accumulate violations. -/
def ComplianceValidator.validate_document (registry : JurisdictionRegistry)
    (document : Option String) (court_id : String) : Bool × List String :=
  match registry.get_profile court_id with
  | none => (false, ["Unknown court ID: " ++ court_id])
  | some profile =>
    let content := document.getD ""
    let violations :=
      check_formatting content profile.formatting ++
      check_filing_rules content profile.filing ++
      check_special_rules content profile.special_rules
    (violations.length == 0, violations)

/-- AI model identifiers (`ModelType` enum). -/
inductive ModelType where
  | GPT4
  | CLAUDE_3_OPUS
  | CLAUDE_3_SONNET
  | PERPLEXITY
  | LOCAL_LLAMA
deriving DecidableEq, Repr

/-- Legal task types (`TaskType` enum). -/
inductive TaskType where
  | LEGAL_RESEARCH
  | DOCUMENT_GENERATION
  | LEGAL_ANALYSIS
  | EVIDENCE_REVIEW
  | CITATION_CHECKING
deriving DecidableEq, Repr

/-- `TaskType(task_type)` string conversion; `none` models the
`ValueError` branch. -/
def TaskType.ofString? : String → Option TaskType
  | "legal_research" => some .LEGAL_RESEARCH
  | "document_generation" => some .DOCUMENT_GENERATION
  | "legal_analysis" => some .LEGAL_ANALYSIS
  | "evidence_review" => some .EVIDENCE_REVIEW
  | "citation_checking" => some .CITATION_CHECKING
  | _ => none

/-- `ModelProfile` dataclass; cost, latency and reliability are the float
literals of `_initialize_profiles`, embedded as rationals. -/
structure ModelProfile where
  model_type : ModelType
  strengths : List TaskType
  max_context : Nat
  cost_per_1k_tokens : ℚ
  avg_latency : ℚ
  reliability : ℚ
deriving DecidableEq, Repr

/-- Static capability table from `_initialize_profiles`. The float
literals of the source are written as explicit reduced fractions so that
they evaluate inside the kernel: 0.03 = 3/100, 2.5 = 5/2, 0.95 = 19/20,
0.015 = 3/200, 0.93 = 93/100, 0.003 = 3/1000, 1.5 = 3/2, 0.90 = 9/10,
0.001 = 1/1000, 0.88 = 22/25, 0.75 = 3/4. -/
def profiles : ModelType → ModelProfile
  | .GPT4 =>
    ⟨.GPT4, [.LEGAL_ANALYSIS, .DOCUMENT_GENERATION, .CITATION_CHECKING],
      128000, ⟨3, 100, by decide, by decide⟩, ⟨5, 2, by decide, by decide⟩,
      ⟨19, 20, by decide, by decide⟩⟩
  | .CLAUDE_3_OPUS =>
    ⟨.CLAUDE_3_OPUS, [.LEGAL_RESEARCH, .DOCUMENT_GENERATION, .LEGAL_ANALYSIS],
      200000, ⟨3, 200, by decide, by decide⟩, 3,
      ⟨93, 100, by decide, by decide⟩⟩
  | .CLAUDE_3_SONNET =>
    ⟨.CLAUDE_3_SONNET, [.EVIDENCE_REVIEW, .CITATION_CHECKING],
      200000, ⟨3, 1000, by decide, by decide⟩, ⟨3, 2, by decide, by decide⟩,
      ⟨9, 10, by decide, by decide⟩⟩
  | .PERPLEXITY =>
    ⟨.PERPLEXITY, [.LEGAL_RESEARCH], 16000,
      ⟨1, 1000, by decide, by decide⟩, 2, ⟨22, 25, by decide, by decide⟩⟩
  | .LOCAL_LLAMA =>
    ⟨.LOCAL_LLAMA, [.CITATION_CHECKING, .EVIDENCE_REVIEW], 32000,
      0, 5, ⟨3, 4, by decide, by decide⟩⟩

/-- Static fallback-chain table from `_initialize_fallbacks`. -/
def fallback_chains : TaskType → List ModelType
  | .LEGAL_RESEARCH => [.PERPLEXITY, .CLAUDE_3_OPUS, .GPT4]
  | .DOCUMENT_GENERATION => [.CLAUDE_3_OPUS, .GPT4, .CLAUDE_3_SONNET]
  | .LEGAL_ANALYSIS => [.GPT4, .CLAUDE_3_OPUS, .CLAUDE_3_SONNET]
  | .EVIDENCE_REVIEW => [.CLAUDE_3_SONNET, .GPT4, .LOCAL_LLAMA]
  | .CITATION_CHECKING => [.CLAUDE_3_SONNET, .LOCAL_LLAMA, .GPT4]

/-- Python `min(iterable, key=...)` on a non-empty list: the first element
whose key is minimal (later elements replace only on strict decrease). -/
def pyminBy {α : Type} (key : α → ℚ) : α → List α → α
  | best, [] => best
  | best, x :: xs => if key x < key best then pyminBy key x xs else pyminBy key best xs

/-- Python `max(iterable, key=...)` on a non-empty list: the first element
whose key is maximal (later elements replace only on strict increase). -/
def pymaxBy {α : Type} (key : α → ℚ) : α → List α → α
  | best, [] => best
  | best, x :: xs => if key best < key x then pymaxBy key x xs else pymaxBy key best xs

/-- Candidate computation of `select_model`: the task's fallback chain,
filtered by `max_context ≥ context_size` when `context_size` is supplied
and truthy (Python `if context_size:` skips the filter on `0`). -/
def filteredCandidates (task : TaskType) (context_size : Option Nat) :
    List ModelType :=
  let candidates := fallback_chains task
  match context_size with
  | some n =>
    if n ≠ 0 then candidates.filter (fun m => (profiles m).max_context ≥ n)
    else candidates
  | none => candidates

/-- `select_model`: unrecognized task strings degrade to legal analysis;
an emptied candidate set falls back to GPT-4; otherwise cost picks the
minimum cost, speed the minimum latency, anything else the maximum
reliability, ties resolved to the earliest chain position. -/
def select_model (task_type : String) (context_size : Option Nat)
    (priority : String) : ModelType :=
  let task := (TaskType.ofString? task_type).getD .LEGAL_ANALYSIS
  match filteredCandidates task context_size with
  | [] => .GPT4
  | c :: cs =>
    if priority = "cost" then
      pyminBy (fun m => (profiles m).cost_per_1k_tokens) c cs
    else if priority = "speed" then
      pyminBy (fun m => (profiles m).avg_latency) c cs
    else
      pymaxBy (fun m => (profiles m).reliability) c cs

/-- `TaskResult` dataclass. Wall-clock execution times are abstracted to
0 in this embedding (`time.time()` differences are not modelled). -/
structure TaskResult where
  success : Bool
  output : Option String
  model_used : ModelType
  execution_time : ℚ
  tokens_used : Nat
  error : Option String
deriving DecidableEq, Repr

/-- Loop of `execute_with_fallback` over the fallback chain. A success
returns immediately; a failure is logged and, when the failing model
equals the chain's last element, returned; the `[]` case embeds the
dead fall-through after the loop (unreachable for the router's chains,
which are never empty). The task function models
`task_fn(model_type, *args)`, raising embedded as `Except.error`. -/
def ewfGo (task_fn : ModelType → Except String String) (lastModel : ModelType) :
    List ModelType → List TaskResult → TaskResult × List TaskResult
  | [], log => (⟨false, none, .GPT4, 0, 0, some "No models available"⟩, log)
  | m :: rest, log =>
    match task_fn m with
    | .ok output =>
      let r : TaskResult := ⟨true, some output, m, 0, 0, none⟩
      (r, log ++ [r])
    | .error e =>
      let r : TaskResult := ⟨false, none, m, 0, 0, some e⟩
      if m = lastModel then (r, log ++ [r])
      else ewfGo task_fn lastModel rest (log ++ [r])

/-- `execute_with_fallback`: walks the task's chain with `ewfGo`, starting
from the router's current performance log; returns the final
`TaskResult` and the updated log. -/
def execute_with_fallback (task_type : TaskType)
    (task_fn : ModelType → Except String String)
    (performance_log : List TaskResult) : TaskResult × List TaskResult :=
  let fallback_chain := fallback_chains task_type
  ewfGo task_fn (fallback_chain.getLastD .GPT4) fallback_chain performance_log

/-- Unfolding of `String.intercalate` on a singleton list. -/
theorem intercalate_single (s a : String) : String.intercalate s [a] = a := by
  simp [String.intercalate, String.intercalate.go]

/-- Unfolding of `String.intercalate` on a two-element list. -/
theorem intercalate_pair (s a b : String) :
    String.intercalate s [a, b] = a ++ s ++ b := by
  simp [String.intercalate, String.intercalate.go]

/-- Registry used by concrete witnesses: one fully-populated source, one
source with neither label nor pages. -/
def witnessRegistry : EvidenceRegistry :=
  ⟨[("email_1", ⟨"email_1", "Email of Oct 15", some "emails/1.pdf", some [1, 2, 3], some "A"⟩),
    ("bare_1", ⟨"bare_1", "Unlabeled note", none, none, none⟩),
    ("page5_1", ⟨"page5_1", "Single page letter", none, some [5], some "A"⟩)]⟩

/-- Claim C1: with citation required, an evidence id list containing an id
missing from the registry makes `draft_paragraph` fail with
`UnknownEvidence` whose payload is exactly the ordered list of missing
ids (so every missing id is named), and no text/updated drafter is
returned, leaving the citation log unchanged. -/
theorem C1_unknown_evidence (d : EvidenceAwareDrafter) (content : String)
    (ids : List String) (h : ∃ i ∈ ids, d.registry.get i = none) :
    d.draft_paragraph content ids true =
      .error (.UnknownEvidence (ids.filter (fun i => (d.registry.get i).isNone))
        (content.take 50)) ∧
    (∀ i ∈ ids, d.registry.get i = none →
      i ∈ ids.filter (fun i2 => (d.registry.get i2).isNone)) ∧
    (∀ r, d.draft_paragraph content ids true ≠ .ok r) := by
  obtain ⟨i, hi, hnone⟩ := h
  have hne : ids ≠ [] := by
    intro h0
    rw [h0] at hi
    exact absurd hi (List.not_mem_nil i)
  have hmem : i ∈ ids.filter (fun i2 => (d.registry.get i2).isNone) :=
    List.mem_filter.mpr ⟨hi, by simp [hnone]⟩
  have hlen : (ids.filter (fun i2 => (d.registry.get i2).isNone)).length ≠ 0 := by
    intro h0
    rw [List.length_eq_zero] at h0
    rw [h0] at hmem
    exact absurd hmem (List.not_mem_nil i)
  have hmain : d.draft_paragraph content ids true =
      .error (.UnknownEvidence (ids.filter (fun i => (d.registry.get i).isNone))
        (content.take 50)) := by
    simp only [EvidenceAwareDrafter.draft_paragraph,
      EvidenceRegistry.validate_citations, if_true, if_neg hne]
    simp [hlen]
  refine ⟨hmain, ?_, ?_⟩
  · intro i2 hi2 hnone2
    exact List.mem_filter.mpr ⟨hi2, by simp [hnone2]⟩
  · intro r hr
    rw [hmain] at hr
    exact Except.noConfusion hr

/-- Claim C1 witness at an empty registry and the id list ["x"]. -/
theorem C1_unknown_evidence_witness :
    (⟨⟨[]⟩, []⟩ : EvidenceAwareDrafter).draft_paragraph "The claim." ["x"] true =
      .error (.UnknownEvidence ["x"] "The claim.") := by
  have h := C1_unknown_evidence ⟨⟨[]⟩, []⟩ "The claim." ["x"]
    ⟨"x", by decide, by decide⟩
  rw [h.1]
  exact congrArg Except.error (by decide)

/-- Claim C2 counterexample: drafting "abc" with require_citation=false and
no evidence ids returns "abc " - the content plus a trailing space coming
from the f-string separator - not the content alone as claimed. -/
theorem C2_counterexample :
    ((⟨⟨[]⟩, []⟩ : EvidenceAwareDrafter).draft_paragraph "abc" [] false).map
        (fun r => r.1) = .ok "abc " ∧ ("abc " : String) ≠ "abc" := by
  exact ⟨rfl, by decide⟩

/-- Claim C2 amended: with require_citation=false and an empty evidence id
list, `draft_paragraph` returns the content followed by one trailing
space (the separator before the empty citation suffix) and no citation
text, and appends the Citation record. -/
theorem C2_amended_trailing_space (d : EvidenceAwareDrafter) (content : String) :
    d.draft_paragraph content [] false =
      .ok (content ++ " ",
        ⟨d.registry, d.citations ++ [⟨content, [], content.length⟩]⟩) := by
  simp [EvidenceAwareDrafter.draft_paragraph, draftBody, format_citations]

/-- Claim C3: an unregistered court id makes `validate_document` return the
fatal UnknownCourt report, and the result does not depend on the document,
so no document text is read and no formatting/filing/special-rule check
runs. -/
theorem C3_unknown_court_halts (reg : JurisdictionRegistry) (court_id : String)
    (h : reg.get_profile court_id = none) (doc doc2 : Option String) :
    ComplianceValidator.validate_document reg doc court_id =
      (false, ["Unknown court ID: " ++ court_id]) ∧
    ComplianceValidator.validate_document reg doc court_id =
      ComplianceValidator.validate_document reg doc2 court_id := by
  constructor
  · simp [ComplianceValidator.validate_document, h]
  · simp [ComplianceValidator.validate_document, h]

/-- Claim C3 witness at the default registry and the id "zz". -/
theorem C3_unknown_court_halts_witness :
    ComplianceValidator.validate_document defaultJurisdictionRegistry
      (some "any document text") "zz" = (false, ["Unknown court ID: zz"]) := by
  exact (C3_unknown_court_halts defaultJurisdictionRegistry "zz" (by decide)
    (some "any document text") none).1

/-- Claim C5: with a single recorded citation at location L, a
claim-pattern match starting at L+50 is within the 200-character window
and is excluded from the uncited list, while a match starting at L+500 is
outside it and is included. -/
theorem C5_proximity_window (d : EvidenceAwareDrafter) (t : String)
    (eids : List String) (L : Nat) (m1 m2 : ClaimMatch)
    (hcit : d.citations = [⟨t, eids, L⟩])
    (h1 : m1.start = L + 50) (h2 : m2.start = L + 500) :
    d.validate_document [m1, m2] = (false, [m2.text]) := by
  have hnear : has_nearby_citation d.citations m1.start = true := by
    simp [has_nearby_citation, hcit, h1]
  have hfar : has_nearby_citation d.citations m2.start = false := by
    simp [has_nearby_citation, hcit, h2]
  simp [EvidenceAwareDrafter.validate_document, hnear, hfar]

/-- Claim C5 witness: citation at location 10, matches at offsets 60 and
510. -/
theorem C5_proximity_window_witness :
    (⟨⟨[]⟩, [⟨"para", [], 10⟩]⟩ : EvidenceAwareDrafter).validate_document
      [⟨60, "On June 3, 2021"⟩, ⟨510, "$4,000"⟩] = (false, ["$4,000"]) := by
  exact C5_proximity_window ⟨⟨[]⟩, [⟨"para", [], 10⟩]⟩ "para" [] 10
    ⟨60, "On June 3, 2021"⟩ ⟨510, "$4,000"⟩ rfl rfl rfl

/-- Claim C6: the citation suffix format - label "A" with pages [1,2,3]
gives the fragment "Ex. A, pp. 1-3" (label and pages joined by a comma),
pages [5] gives "p. 5", absent pages give the label fragment alone, and
for two resolvable ids the fragments are joined by "; " and wrapped in one
parenthesis pair. -/
theorem C6_citation_suffix_format (reg : EvidenceRegistry) (i j : String)
    (ev ew : EvidenceSource) (hi : reg.get i = some ev) (hj : reg.get j = some ew) :
    (ev.exhibit_number = some "A" → ev.page_numbers = some [1, 2, 3] →
      citeFragment ev = "Ex. A, pp. 1-3" ∧
      format_citations reg [i] = "(Ex. A, pp. 1-3)") ∧
    (ev.exhibit_number = some "A" → ev.page_numbers = some [5] →
      citeFragment ev = "Ex. A, p. 5") ∧
    (ev.exhibit_number = some "A" → ev.page_numbers = none →
      citeFragment ev = "Ex. A") ∧
    format_citations reg [i, j] =
      "(" ++ citeFragment ev ++ "; " ++ citeFragment ew ++ ")" := by
  have hone : format_citations reg [i] = "(" ++ citeFragment ev ++ ")" := by
    simp [format_citations, hi, intercalate_single]
  refine ⟨?_, ?_, ?_, ?_⟩
  · intro hl hp
    have hfrag : citeFragment ev = "Ex. A, pp. 1-3" := by
      simp only [citeFragment, hl, hp]
      decide
    exact ⟨hfrag, by rw [hone, hfrag]; decide⟩
  · intro hl hp
    simp only [citeFragment, hl, hp]
    decide
  · intro hl hp
    simp only [citeFragment, hl, hp]
    decide
  · simp [format_citations, hi, hj, intercalate_pair, String.append_assoc]

/-- Claim C6 witness at the witness registry: label "A" with pages
[1,2,3] for one id, [5] for the other, with both joint formats. -/
theorem C6_citation_suffix_format_witness :
    format_citations witnessRegistry ["email_1"] = "(Ex. A, pp. 1-3)" ∧
    format_citations witnessRegistry ["page5_1"] = "(Ex. A, p. 5)" := by
  have h1 := C6_citation_suffix_format witnessRegistry "email_1" "page5_1"
    ⟨"email_1", "Email of Oct 15", some "emails/1.pdf", some [1, 2, 3], some "A"⟩
    ⟨"page5_1", "Single page letter", none, some [5], some "A"⟩
    (by decide) (by decide)
  have h2 := C6_citation_suffix_format witnessRegistry "page5_1" "email_1"
    ⟨"page5_1", "Single page letter", none, some [5], some "A"⟩
    ⟨"email_1", "Email of Oct 15", some "emails/1.pdf", some [1, 2, 3], some "A"⟩
    (by decide) (by decide)
  refine ⟨(h1.1 rfl rfl).2, ?_⟩
  have hfive := h2.2.1 rfl rfl
  have hget2 : witnessRegistry.get "page5_1" =
      some ⟨"page5_1", "Single page letter", none, some [5], some "A"⟩ := by
    decide
  have hformat : format_citations witnessRegistry ["page5_1"] =
      "(" ++ citeFragment ⟨"page5_1", "Single page letter", none, some [5], some "A"⟩ ++ ")" := by
    simp [format_citations, hget2, intercalate_single]
  rw [hformat, hfive]
  decide

/-- Claim C9: with require_citation=false, `draft_paragraph` always
succeeds - unresolvable ids do not raise - the appended Citation records
the full evidence id list verbatim, and an id missing from the registry
contributes nothing to the citation suffix (dropping it leaves the suffix
unchanged, whenever the remaining list is still non-empty so that the
empty-list guard keeps the same branch). -/
theorem C9_optional_citation_total (d : EvidenceAwareDrafter) (content : String)
    (ids ids1 ids2 : List String) (bad : String)
    (hbad : d.registry.get bad = none) (hne : ids1 ++ ids2 ≠ []) :
    d.draft_paragraph content ids false =
      .ok (content ++ " " ++ format_citations d.registry ids,
        ⟨d.registry, d.citations ++ [⟨content, ids, content.length⟩]⟩) ∧
    format_citations d.registry (ids1 ++ bad :: ids2) =
      format_citations d.registry (ids1 ++ ids2) := by
  constructor
  · simp [EvidenceAwareDrafter.draft_paragraph, draftBody]
  · have hbadne : ids1 ++ bad :: ids2 ≠ [] := by
      simp
    simp only [format_citations, if_neg hbadne, if_neg hne]
    congr 2
    simp [List.filterMap_append, hbad]

/-- Claim C9 witness: unregistered id "ghost" among ["email_1", "ghost"]
at the witness registry. -/
theorem C9_optional_citation_total_witness :
    (⟨witnessRegistry, []⟩ : EvidenceAwareDrafter).draft_paragraph
        "Claim text" ["email_1", "ghost"] false =
      .ok ("Claim text " ++ format_citations witnessRegistry ["email_1", "ghost"],
        ⟨witnessRegistry, [⟨"Claim text", ["email_1", "ghost"], 10⟩]⟩) ∧
    format_citations witnessRegistry ["email_1", "ghost"] =
      format_citations witnessRegistry ["email_1"] := by
  have h := C9_optional_citation_total ⟨witnessRegistry, []⟩ "Claim text"
    ["email_1", "ghost"] ["email_1"] [] "ghost" (by decide) (by decide)
  exact ⟨h.1, h.2⟩

/-- Claim C10: a registered evidence source with neither exhibit label nor
page numbers has the empty citation fragment, and a paragraph citing only
that source gets the non-empty suffix "()": the returned text is the
content followed by " ()". -/
theorem C10_empty_fragment_parens (d : EvidenceAwareDrafter)
    (content eid : String) (ev : EvidenceSource)
    (hget : d.registry.get eid = some ev)
    (hlabel : ev.exhibit_number = none) (hpages : ev.page_numbers = none) :
    citeFragment ev = "" ∧
    format_citations d.registry [eid] = "()" ∧
    (d.draft_paragraph content [eid] false).map (fun r => r.1) =
      .ok (content ++ " ()") := by
  have hfrag : citeFragment ev = "" := by
    simp only [citeFragment, hlabel, hpages, labelFragment, pagesFragment,
      List.append_nil]
    rfl
  have hfmt : format_citations d.registry [eid] = "()" := by
    simp [format_citations, hget, hfrag, intercalate_single]
  have hsp : (" " : String) ++ "()" = " ()" := by
    decide
  refine ⟨hfrag, hfmt, ?_⟩
  simp [EvidenceAwareDrafter.draft_paragraph, draftBody, hfmt, Except.map,
    String.append_assoc, hsp]

/-- Claim C10 witness at the witness registry's bare source. -/
theorem C10_empty_fragment_parens_witness :
    ((⟨witnessRegistry, []⟩ : EvidenceAwareDrafter).draft_paragraph
        "Some text" ["bare_1"] false).map (fun r => r.1) =
      .ok ("Some text ()") := by
  exact (C10_empty_fragment_parens ⟨witnessRegistry, []⟩ "Some text" "bare_1"
    ⟨"bare_1", "Unlabeled note", none, none, none⟩ (by decide) rfl rfl).2.2

/-- Formalisation of the claim's selection rule, written from its words:
the first list element whose key is minimal (minimum with ties broken by
earliest position). -/
def spec_firstMinBy {α : Type} (key : α → ℚ) (l : List α) : Option α :=
  l.find? (fun m => l.all (fun m2 => decide (key m ≤ key m2)))

/-- Formalisation of the claim's selection rule for maxima: the first list
element whose key is maximal. -/
def spec_firstMaxBy {α : Type} (key : α → ℚ) (l : List α) : Option α :=
  l.find? (fun m => l.all (fun m2 => decide (key m2 ≤ key m)))

theorem pyminBy_le_start {α : Type} (key : α → ℚ) (c : α) (cs : List α) :
    key (pyminBy key c cs) ≤ key c := by
  induction cs generalizing c with
  | nil => exact le_refl _
  | cons x xs ih =>
    simp only [pyminBy]
    split
    · exact le_of_lt (lt_of_le_of_lt (ih x) (by assumption))
    · exact ih c

theorem pyminBy_le {α : Type} (key : α → ℚ) (c : α) (cs : List α) :
    ∀ y ∈ c :: cs, key (pyminBy key c cs) ≤ key y := by
  induction cs generalizing c with
  | nil =>
    intro y hy
    rw [List.mem_singleton] at hy
    rw [hy]
    exact le_refl _
  | cons x xs ih =>
    intro y hy
    simp only [pyminBy]
    rcases List.mem_cons.mp hy with rfl | hy2
    · split
      · exact le_of_lt (lt_of_le_of_lt (pyminBy_le_start key x xs) (by assumption))
      · exact pyminBy_le_start key y xs
    · rcases List.mem_cons.mp hy2 with rfl | hy3
      · split
        · exact pyminBy_le_start key y xs
        · exact le_trans (pyminBy_le_start key c xs) (le_of_not_lt (by assumption))
      · split
        · exact ih x y (List.mem_cons_of_mem x hy3)
        · exact ih c y (List.mem_cons_of_mem c hy3)

/-- The python minimum decomposes its input as a strictly-larger prefix,
the returned element, and a suffix. -/
theorem pyminBy_decomp {α : Type} (key : α → ℚ) (c : α) (cs : List α) :
    ∃ l1 l2, c :: cs = l1 ++ pyminBy key c cs :: l2 ∧
      ∀ x ∈ l1, key (pyminBy key c cs) < key x := by
  induction cs generalizing c with
  | nil =>
    exact ⟨[], [], rfl, by simp⟩
  | cons x xs ih =>
    simp only [pyminBy]
    split
    · obtain ⟨l1, l2, hdec, hlt⟩ := ih x
      refine ⟨c :: l1, l2, by rw [List.cons_append, ← hdec], ?_⟩
      intro y hy
      rcases List.mem_cons.mp hy with rfl | hy2
      · exact lt_of_le_of_lt (pyminBy_le_start key x xs) (by assumption)
      · exact hlt y hy2
    · obtain ⟨l1, l2, hdec, hlt⟩ := ih c
      cases l1 with
      | nil =>
        simp only [List.nil_append] at hdec
        rw [List.cons.injEq] at hdec
        refine ⟨[], x :: xs, ?_, by simp⟩
        rw [List.nil_append, ← hdec.1]
      | cons c1 l1t =>
        rw [List.cons_append, List.cons.injEq] at hdec
        obtain ⟨rfl, hdec2⟩ := hdec
        refine ⟨c :: x :: l1t, l2, ?_, ?_⟩
        · rw [List.cons_append, List.cons_append]
          exact congrArg (fun t => c :: x :: t) hdec2
        · intro y hy
          rcases List.mem_cons.mp hy with rfl | hy2
          · exact hlt y (List.mem_cons_self y l1t)
          · rcases List.mem_cons.mp hy2 with rfl | hy3
            · exact lt_of_lt_of_le (hlt c (List.mem_cons_self c l1t)) (le_of_not_lt (by assumption))
            · exact hlt y (List.mem_cons_of_mem c hy3)

/-- On a non-empty list, the python minimum is exactly the claim's
first-minimal element. -/
theorem spec_firstMinBy_cons {α : Type} (key : α → ℚ) (c : α) (cs : List α) :
    spec_firstMinBy key (c :: cs) = some (pyminBy key c cs) := by
  rw [spec_firstMinBy, List.find?_eq_some]
  obtain ⟨l1, l2, hdec, hlt⟩ := pyminBy_decomp key c cs
  refine ⟨?_, l1, l2, hdec, ?_⟩
  · rw [List.all_eq_true]
    intro y hy
    exact decide_eq_true (pyminBy_le key c cs y hy)
  · intro a ha
    have hmem : pyminBy key c cs ∈ c :: cs := by
      rw [hdec]
      exact List.mem_append_right l1 (List.mem_cons_self _ l2)
    rw [Bool.not_eq_true', List.all_eq_false]
    refine ⟨pyminBy key c cs, hmem, ?_⟩
    simp only [decide_eq_true_eq]
    exact not_le.mpr (hlt a ha)

/-- The python maximum is the python minimum of the negated key. -/
theorem pymaxBy_eq_pyminBy_neg {α : Type} (key : α → ℚ) (c : α) (cs : List α) :
    pymaxBy key c cs = pyminBy (fun a => -(key a)) c cs := by
  induction cs generalizing c with
  | nil => rfl
  | cons x xs ih =>
    simp only [pymaxBy, pyminBy, neg_lt_neg_iff]
    split
    · exact ih x
    · exact ih c

/-- The claim's first-maximal element is the first-minimal element of the
negated key. -/
theorem spec_firstMaxBy_eq_neg {α : Type} (key : α → ℚ) (l : List α) :
    spec_firstMaxBy key l = spec_firstMinBy (fun a => -(key a)) l := by
  simp only [spec_firstMaxBy, spec_firstMinBy, neg_le_neg_iff]

theorem spec_firstMaxBy_cons {α : Type} (key : α → ℚ) (c : α) (cs : List α) :
    spec_firstMaxBy key (c :: cs) = some (pymaxBy key c cs) := by
  rw [spec_firstMaxBy_eq_neg, pymaxBy_eq_pyminBy_neg, spec_firstMinBy_cons]

/-- Claim C7: for a recognized task string and a non-empty filtered
candidate set, priority "cost" selects the first candidate of minimum
cost-per-1k-tokens, "speed" the first of minimum average latency, and any
other priority the first of maximum reliability (ties resolved to the
earliest chain position in each case); in particular
select_model("legal_research", cost) is PERPLEXITY, the chain member with
the lowest cost. -/
theorem C7_select_model_priorities (s : String) (t : TaskType)
    (hs : TaskType.ofString? s = some t) (ctx : Option Nat) (p : String)
    (hne : filteredCandidates t ctx ≠ []) :
    spec_firstMinBy (fun m => (profiles m).cost_per_1k_tokens)
        (filteredCandidates t ctx) = some (select_model s ctx "cost") ∧
    spec_firstMinBy (fun m => (profiles m).avg_latency)
        (filteredCandidates t ctx) = some (select_model s ctx "speed") ∧
    (p ≠ "cost" → p ≠ "speed" →
      spec_firstMaxBy (fun m => (profiles m).reliability)
        (filteredCandidates t ctx) = some (select_model s ctx p)) ∧
    select_model "legal_research" none "cost" = ModelType.PERPLEXITY := by
  obtain ⟨c, cs, hl⟩ : ∃ c cs, filteredCandidates t ctx = c :: cs := by
    cases hcand : filteredCandidates t ctx with
    | nil => exact absurd hcand hne
    | cons c cs => exact ⟨c, cs, rfl⟩
  refine ⟨?_, ?_, ?_, by decide⟩
  · rw [hl, spec_firstMinBy_cons]
    simp [select_model, hs, hl]
  · rw [hl, spec_firstMinBy_cons]
    simp [select_model, hs, hl]
  · intro hp1 hp2
    rw [hl, spec_firstMaxBy_cons]
    simp [select_model, hs, hl, hp1, hp2]

/-- Claim C7 witness at the evidence-review task with no context filter
and the default "quality" priority. -/
theorem C7_select_model_priorities_witness :
    spec_firstMinBy (fun m => (profiles m).cost_per_1k_tokens)
        (filteredCandidates .EVIDENCE_REVIEW none) =
      some (select_model "evidence_review" none "cost") ∧
    select_model "legal_research" none "cost" = ModelType.PERPLEXITY := by
  have h := C7_select_model_priorities "evidence_review" .EVIDENCE_REVIEW rfl
    none "quality" (by decide)
  exact ⟨h.1, h.2.2.2⟩

/-- Claim C8: for any task whose chain starts with two models m0, m1, a
task function that fails on m0 and succeeds on m1 makes
execute_with_fallback return the success result for m1 and append exactly
the failure entry for m0 followed by the success entry for m1 to the
performance log; the result is fully determined by the task function's
values at m0 and m1, so later chain members are never invoked. -/
theorem C8_fallback_second_succeeds (t : TaskType)
    (f : ModelType → Except String String) (e out : String)
    (L : List TaskResult) (m0 m1 : ModelType) (rest : List ModelType)
    (hchain : fallback_chains t = m0 :: m1 :: rest)
    (h0 : f m0 = .error e) (h1 : f m1 = .ok out) :
    execute_with_fallback t f L =
      (⟨true, some out, m1, 0, 0, none⟩,
       L ++ [⟨false, none, m0, 0, 0, some e⟩,
             ⟨true, some out, m1, 0, 0, none⟩]) := by
  cases t <;>
    simp only [fallback_chains, List.cons.injEq] at hchain <;>
    obtain ⟨h_1, h_2, h_3⟩ := hchain <;>
    subst h_1 <;> subst h_2 <;> subst h_3 <;>
    simp [execute_with_fallback, fallback_chains, ewfGo, h0, h1]

/-- Claim C8 witness: legal research chain with PERPLEXITY failing and
CLAUDE_3_OPUS succeeding, starting from an empty performance log. -/
theorem C8_fallback_second_succeeds_witness :
    execute_with_fallback .LEGAL_RESEARCH
      (fun m => if m = .PERPLEXITY then .error "boom" else .ok "ans") [] =
      (⟨true, some "ans", .CLAUDE_3_OPUS, 0, 0, none⟩,
       [⟨false, none, .PERPLEXITY, 0, 0, some "boom"⟩,
        ⟨true, some "ans", .CLAUDE_3_OPUS, 0, 0, none⟩]) := by
  exact C8_fallback_second_succeeds .LEGAL_RESEARCH
    (fun m => if m = .PERPLEXITY then .error "boom" else .ok "ans")
    "boom" "ans" [] .PERPLEXITY .CLAUDE_3_OPUS [.GPT4] rfl rfl rfl

/-- The dict write performed by `exhibitStep` for one evidence id, when
there is one: the truthy exhibit label paired with the evidence record. -/
def writeOf (reg : EvidenceRegistry) (eid : String) :
    Option (String × EvidenceSource) :=
  match reg.get eid with
  | some ev =>
    match ev.exhibit_number with
    | some l => if l = "" then none else some (l, ev)
    | none => none
  | none => none

theorem exhibitStep_eq_writeOf (reg : EvidenceRegistry)
    (acc : List (String × EvidenceSource)) (eid : String) :
    exhibitStep reg acc eid =
      match writeOf reg eid with
      | some (l, ev) => upsertAssoc acc l ev
      | none => acc := by
  unfold exhibitStep writeOf
  cases hg : reg.get eid with
  | none => simp
  | some ev =>
    cases he : ev.exhibit_number with
    | none => simp [he]
    | some l =>
      by_cases hl : l = "" <;> simp [he, hl]

theorem writeOf_spec (reg : EvidenceRegistry) (eid l : String)
    (v : EvidenceSource) (h : writeOf reg eid = some (l, v)) :
    reg.get eid = some v ∧ v.exhibit_number = some l ∧ l ≠ "" := by
  unfold writeOf at h
  cases hg : reg.get eid with
  | none =>
    simp only [hg] at h
    exact absurd h (by simp)
  | some ev =>
    simp only [hg] at h
    cases he : ev.exhibit_number with
    | none =>
      simp only [he] at h
      exact absurd h (by simp)
    | some l2 =>
      simp only [he] at h
      by_cases hl : l2 = ""
      · rw [if_pos hl] at h
        exact absurd h (by simp)
      · rw [if_neg hl] at h
        rw [Option.some.injEq, Prod.mk.injEq] at h
        obtain ⟨rfl, rfl⟩ := h
        exact ⟨rfl, he, hl⟩

theorem lookupAssoc_upsert_self {α : Type} (acc : List (String × α))
    (k : String) (v : α) :
    lookupAssoc (upsertAssoc acc k v) k = some v := by
  induction acc with
  | nil => simp [upsertAssoc, lookupAssoc]
  | cons p rest ih =>
    obtain ⟨k1, v1⟩ := p
    by_cases h : k1 = k
    · simp [upsertAssoc, h, lookupAssoc]
    · simp [upsertAssoc, h, lookupAssoc, ih]

theorem lookupAssoc_upsert_other {α : Type} (acc : List (String × α))
    (k k2 : String) (v : α) (h : k2 ≠ k) :
    lookupAssoc (upsertAssoc acc k v) k2 = lookupAssoc acc k2 := by
  induction acc with
  | nil =>
    simp only [upsertAssoc, lookupAssoc, if_neg (Ne.symm h)]
  | cons p rest ih =>
    obtain ⟨k1, v1⟩ := p
    by_cases h1 : k1 = k
    · subst h1
      simp only [upsertAssoc, if_pos rfl, lookupAssoc, if_neg (Ne.symm h)]
    · simp only [upsertAssoc, if_neg h1, lookupAssoc, ih]

theorem mem_keys_upsert {α : Type} (acc : List (String × α))
    (k a : String) (v : α) :
    a ∈ assocKeys (upsertAssoc acc k v) ↔ a ∈ assocKeys acc ∨ a = k := by
  induction acc with
  | nil => simp [upsertAssoc, assocKeys]
  | cons p rest ih =>
    obtain ⟨k1, v1⟩ := p
    by_cases h : k1 = k
    · subst h
      simp [upsertAssoc, assocKeys]
      tauto
    · simp [upsertAssoc, h, assocKeys] at ih ⊢
      tauto

theorem nodup_keys_upsert {α : Type} (acc : List (String × α))
    (k : String) (v : α) (h : (assocKeys acc).Nodup) :
    (assocKeys (upsertAssoc acc k v)).Nodup := by
  induction acc with
  | nil => simp [upsertAssoc, assocKeys]
  | cons p rest ih =>
    obtain ⟨k1, v1⟩ := p
    simp only [assocKeys, List.map_cons, List.nodup_cons] at h
    by_cases h1 : k1 = k
    · subst h1
      simpa [upsertAssoc, assocKeys, List.nodup_cons] using h
    · simp only [upsertAssoc, if_neg h1, assocKeys, List.map_cons,
        List.nodup_cons]
      refine ⟨?_, ih h.2⟩
      rw [show (upsertAssoc rest k v).map (fun p => p.1) =
        assocKeys (upsertAssoc rest k v) from rfl, mem_keys_upsert]
      push_neg
      exact ⟨h.1, h1⟩

theorem lookupAssoc_mem {α : Type} (l : List (String × α)) (k : String)
    (v : α) (h : lookupAssoc l k = some v) : (k, v) ∈ l := by
  induction l with
  | nil => exact absurd h (by simp [lookupAssoc])
  | cons p rest ih =>
    obtain ⟨k1, v1⟩ := p
    by_cases h1 : k1 = k
    · subst h1
      rw [lookupAssoc, if_pos rfl, Option.some.injEq] at h
      subst h
      exact List.mem_cons_self _ _
    · rw [lookupAssoc, if_neg h1] at h
      exact List.mem_cons_of_mem _ (ih h)

/-- The nested citation/evidence-id loop of `buildExhibits` equals a flat
fold over the concatenated evidence-id list. -/
theorem buildExhibits_flat (d : EvidenceAwareDrafter) :
    buildExhibits d =
      (d.citations.flatMap (fun c => c.evidence_ids)).foldl
        (exhibitStep d.registry) [] := by
  rw [buildExhibits]
  generalize ([] : List (String × EvidenceSource)) = acc
  induction d.citations generalizing acc with
  | nil => rfl
  | cons c rest ih =>
    simp [List.flatMap_cons, List.foldl_append, ih]

theorem lookup_foldl_no_write (reg : EvidenceRegistry) (ids : List String)
    (l : String) :
    ∀ acc, (∀ eid ∈ ids, ∀ v, writeOf reg eid ≠ some (l, v)) →
      lookupAssoc (ids.foldl (exhibitStep reg) acc) l = lookupAssoc acc l := by
  induction ids with
  | nil =>
    intro acc h
    rfl
  | cons e rest ih =>
    intro acc h
    rw [List.foldl_cons, exhibitStep_eq_writeOf]
    cases hw : writeOf reg e with
    | none =>
      exact ih acc (fun eid hm v => h eid (List.mem_cons_of_mem e hm) v)
    | some p =>
      obtain ⟨lw, vw⟩ := p
      have hne : l ≠ lw := by
        intro hl
        subst hl
        exact h e (List.mem_cons_self e rest) vw hw
      rw [ih _ (fun eid hm v => h eid (List.mem_cons_of_mem e hm) v),
        lookupAssoc_upsert_other _ _ _ _ hne]

theorem lookup_foldl_write (reg : EvidenceRegistry) (l : String)
    (v : EvidenceSource) :
    ∀ ids : List String,
      (∀ eid1 ∈ ids, ∀ eid2 ∈ ids, ∀ v1 v2,
        writeOf reg eid1 = some (l, v1) → writeOf reg eid2 = some (l, v2) →
          v1 = v2) →
      (∃ eid ∈ ids, writeOf reg eid = some (l, v)) →
      ∀ acc, lookupAssoc (ids.foldl (exhibitStep reg) acc) l = some v := by
  intro ids
  induction ids with
  | nil =>
    intro _ h _
    obtain ⟨eid, hm, _⟩ := h
    exact absurd hm (List.not_mem_nil _)
  | cons e rest ih =>
    intro HW h acc
    rw [List.foldl_cons, exhibitStep_eq_writeOf]
    have HWrest : ∀ eid1 ∈ rest, ∀ eid2 ∈ rest, ∀ v1 v2,
        writeOf reg eid1 = some (l, v1) → writeOf reg eid2 = some (l, v2) →
          v1 = v2 :=
      fun e1 h1 e2 h2 v1 v2 hw1 hw2 =>
        HW e1 (List.mem_cons_of_mem e h1) e2 (List.mem_cons_of_mem e h2)
          v1 v2 hw1 hw2
    by_cases hrest : ∃ eid ∈ rest, writeOf reg eid = some (l, v)
    · cases hw : writeOf reg e with
      | none => exact ih HWrest hrest acc
      | some p =>
        obtain ⟨lw, vw⟩ := p
        exact ih HWrest hrest _
    · obtain ⟨eid, hm, hwr⟩ := h
      rcases List.mem_cons.mp hm with rfl | hmem
      · rw [hwr]
        have hno : ∀ eid2 ∈ rest, ∀ v2, writeOf reg eid2 ≠ some (l, v2) := by
          intro eid2 hm2 v2 hw2
          have hv : v2 = v :=
            HW eid2 (List.mem_cons_of_mem eid hm2) eid
              (List.mem_cons_self eid rest) v2 v hw2 hwr
          subst hv
          exact hrest ⟨eid2, hm2, hw2⟩
        rw [lookup_foldl_no_write reg rest l _ hno, lookupAssoc_upsert_self]
      · exact absurd ⟨eid, hmem, hwr⟩ hrest

theorem mem_keys_foldl (reg : EvidenceRegistry) (ids : List String)
    (l : String) :
    ∀ acc, l ∈ assocKeys (ids.foldl (exhibitStep reg) acc) ↔
      l ∈ assocKeys acc ∨ ∃ eid ∈ ids, ∃ v, writeOf reg eid = some (l, v) := by
  induction ids with
  | nil => simp
  | cons e rest ih =>
    intro acc
    rw [List.foldl_cons, exhibitStep_eq_writeOf]
    cases hw : writeOf reg e with
    | none =>
      rw [ih acc]
      constructor
      · rintro (hm | ⟨eid, hm, vv, hww⟩)
        · exact Or.inl hm
        · exact Or.inr ⟨eid, List.mem_cons_of_mem e hm, vv, hww⟩
      · rintro (hm | ⟨eid, hm, vv, hww⟩)
        · exact Or.inl hm
        · rcases List.mem_cons.mp hm with rfl | hmem
          · rw [hw] at hww
            exact absurd hww (by simp)
          · exact Or.inr ⟨eid, hmem, vv, hww⟩
    | some p =>
      obtain ⟨lw, vw⟩ := p
      rw [ih _, mem_keys_upsert]
      constructor
      · rintro ((hm | rfl) | ⟨eid, hm, vv, hww⟩)
        · exact Or.inl hm
        · exact Or.inr ⟨e, List.mem_cons_self e rest, vw, hw⟩
        · exact Or.inr ⟨eid, List.mem_cons_of_mem e hm, vv, hww⟩
      · rintro (hm | ⟨eid, hm, vv, hww⟩)
        · exact Or.inl (Or.inl hm)
        · rcases List.mem_cons.mp hm with rfl | hmem
          · rw [hw] at hww
            rw [Option.some.injEq, Prod.mk.injEq] at hww
            exact Or.inl (Or.inr hww.1.symm)
          · exact Or.inr ⟨eid, hmem, vv, hww⟩

theorem nodup_keys_foldl (reg : EvidenceRegistry) (ids : List String) :
    ∀ acc, (assocKeys acc).Nodup →
      (assocKeys (ids.foldl (exhibitStep reg) acc)).Nodup := by
  induction ids with
  | nil => exact fun acc h => h
  | cons e rest ih =>
    intro acc h
    rw [List.foldl_cons, exhibitStep_eq_writeOf]
    cases hw : writeOf reg e with
    | none => exact ih acc h
    | some p =>
      obtain ⟨lw, vw⟩ := p
      exact ih _ (nodup_keys_upsert acc lw vw h)

/-- Claim C4 counterexample: two drafting histories over the same registry
recording the same multiset of (evidence id, citation) references - the
same two citations in opposite orders - produce different exhibit lists,
because two registered sources share the exhibit label "A" and the
exhibits dict keeps the last-written record per label. -/
theorem C4_counterexample :
    ((⟨⟨[("e1", ⟨"e1", "First email", none, none, some "A"⟩),
         ("e2", ⟨"e2", "Second email", none, none, some "A"⟩)]⟩,
       [⟨"t1", ["e1"], 2⟩, ⟨"t2", ["e2"], 2⟩]⟩ :
        EvidenceAwareDrafter).citations.Perm
      (⟨⟨[("e1", ⟨"e1", "First email", none, none, some "A"⟩),
          ("e2", ⟨"e2", "Second email", none, none, some "A"⟩)]⟩,
        [⟨"t2", ["e2"], 2⟩, ⟨"t1", ["e1"], 2⟩]⟩ :
        EvidenceAwareDrafter).citations) ∧
    (⟨⟨[("e1", ⟨"e1", "First email", none, none, some "A"⟩),
        ("e2", ⟨"e2", "Second email", none, none, some "A"⟩)]⟩,
      [⟨"t1", ["e1"], 2⟩, ⟨"t2", ["e2"], 2⟩]⟩ :
       EvidenceAwareDrafter).generate_exhibit_list ≠
    (⟨⟨[("e1", ⟨"e1", "First email", none, none, some "A"⟩),
        ("e2", ⟨"e2", "Second email", none, none, some "A"⟩)]⟩,
      [⟨"t2", ["e2"], 2⟩, ⟨"t1", ["e1"], 2⟩]⟩ :
       EvidenceAwareDrafter).generate_exhibit_list := by
  constructor
  · decide
  · decide

/-- Claim C4 amended: for drafters over the same registry whose citation
logs are permutations of one another (same multiset of references),
`generate_exhibit_list` produces the same output, provided that no two
registry entries carry the same non-empty exhibit label with different
records - the proviso forced by the counterexample, since the exhibits
dict is last-write-wins per label. -/
theorem C4_order_independent (d1 d2 : EvidenceAwareDrafter)
    (hreg : d2.registry = d1.registry)
    (hperm : d1.citations.Perm d2.citations)
    (hinj : ∀ p ∈ d1.registry.evidence, ∀ q ∈ d1.registry.evidence,
      p.2.exhibit_number = q.2.exhibit_number →
      p.2.exhibit_number ≠ some "" → p.2.exhibit_number ≠ none →
      p.2 = q.2) :
    d1.generate_exhibit_list = d2.generate_exhibit_list := by
  have HW : ∀ l : String, ∀ eid1 eid2 : String, ∀ v1 v2 : EvidenceSource,
      writeOf d1.registry eid1 = some (l, v1) →
      writeOf d1.registry eid2 = some (l, v2) → v1 = v2 := by
    intro l eid1 eid2 v1 v2 h1 h2
    obtain ⟨hg1, he1, hl1⟩ := writeOf_spec d1.registry eid1 l v1 h1
    obtain ⟨hg2, he2, _⟩ := writeOf_spec d1.registry eid2 l v2 h2
    refine hinj (eid1, v1) (lookupAssoc_mem _ _ _ hg1)
      (eid2, v2) (lookupAssoc_mem _ _ _ hg2) ?_ ?_ ?_
    · rw [he1, he2]
    · rw [he1]
      simp [hl1]
    · rw [he1]
      simp
  have hmem : ∀ eid : String,
      eid ∈ d1.citations.flatMap (fun c => c.evidence_ids) ↔
      eid ∈ d2.citations.flatMap (fun c => c.evidence_ids) := by
    intro eid
    rw [List.mem_flatMap, List.mem_flatMap]
    constructor
    · rintro ⟨c, hc, hin⟩
      exact ⟨c, hperm.mem_iff.mp hc, hin⟩
    · rintro ⟨c, hc, hin⟩
      exact ⟨c, hperm.mem_iff.mpr hc, hin⟩
  have hbe1 : buildExhibits d1 =
      (d1.citations.flatMap (fun c => c.evidence_ids)).foldl
        (exhibitStep d1.registry) [] := buildExhibits_flat d1
  have hbe2 : buildExhibits d2 =
      (d2.citations.flatMap (fun c => c.evidence_ids)).foldl
        (exhibitStep d1.registry) [] := by
    rw [buildExhibits_flat, hreg]
  have hlook : ∀ l : String,
      lookupAssoc ((d1.citations.flatMap (fun c => c.evidence_ids)).foldl
        (exhibitStep d1.registry) []) l =
      lookupAssoc ((d2.citations.flatMap (fun c => c.evidence_ids)).foldl
        (exhibitStep d1.registry) []) l := by
    intro l
    by_cases hx : ∃ eid ∈ d1.citations.flatMap (fun c => c.evidence_ids),
        ∃ v, writeOf d1.registry eid = some (l, v)
    · obtain ⟨eid, hm, v, hw⟩ := hx
      rw [lookup_foldl_write d1.registry l v _
          (fun a _ b _ => HW l a b) ⟨eid, hm, hw⟩ [],
        lookup_foldl_write d1.registry l v _
          (fun a _ b _ => HW l a b) ⟨eid, (hmem eid).mp hm, hw⟩ []]
    · push_neg at hx
      have hx2 : ∀ eid ∈ d2.citations.flatMap (fun c => c.evidence_ids),
          ∀ v, writeOf d1.registry eid ≠ some (l, v) :=
        fun eid hm v => hx eid ((hmem eid).mpr hm) v
      rw [lookup_foldl_no_write d1.registry _ l [] hx,
        lookup_foldl_no_write d1.registry _ l [] hx2]
  have hnd1 : (assocKeys ((d1.citations.flatMap (fun c => c.evidence_ids)).foldl
      (exhibitStep d1.registry) [])).Nodup :=
    nodup_keys_foldl d1.registry _ [] (by simp [assocKeys])
  have hnd2 : (assocKeys ((d2.citations.flatMap (fun c => c.evidence_ids)).foldl
      (exhibitStep d1.registry) [])).Nodup :=
    nodup_keys_foldl d1.registry _ [] (by simp [assocKeys])
  have hkiff : ∀ l : String,
      l ∈ assocKeys ((d1.citations.flatMap (fun c => c.evidence_ids)).foldl
        (exhibitStep d1.registry) []) ↔
      l ∈ assocKeys ((d2.citations.flatMap (fun c => c.evidence_ids)).foldl
        (exhibitStep d1.registry) []) := by
    intro l
    rw [mem_keys_foldl d1.registry _ l [], mem_keys_foldl d1.registry _ l []]
    simp only [assocKeys, List.map_nil, List.not_mem_nil, false_or]
    constructor
    · rintro ⟨eid, hm, v, hw⟩
      exact ⟨eid, (hmem eid).mp hm, v, hw⟩
    · rintro ⟨eid, hm, v, hw⟩
      exact ⟨eid, (hmem eid).mpr hm, v, hw⟩
  have hkperm := (List.perm_ext_iff_of_nodup hnd1 hnd2).mpr hkiff
  have hsorted : List.insertionSort (fun a b => a ≤ b)
      (assocKeys ((d1.citations.flatMap (fun c => c.evidence_ids)).foldl
        (exhibitStep d1.registry) [])) =
      List.insertionSort (fun a b => a ≤ b)
      (assocKeys ((d2.citations.flatMap (fun c => c.evidence_ids)).foldl
        (exhibitStep d1.registry) [])) := by
    refine List.eq_of_perm_of_sorted ?_ (List.sorted_insertionSort _ _)
      (List.sorted_insertionSort _ _)
    exact ((List.perm_insertionSort _ _).trans hkperm).trans
      (List.perm_insertionSort _ _).symm
  simp only [EvidenceAwareDrafter.generate_exhibit_list]
  rw [hbe1, hbe2, hsorted]
  congr 1
  congr 1
  congr 1
  apply List.map_congr_left
  intro k _
  rw [hlook k]

/-- Claim C4 amended witness: two concrete histories citing sources with
distinct labels "A" and "B" in opposite orders give the same exhibit
list. -/
theorem C4_order_independent_witness :
    (⟨⟨[("e1", ⟨"e1", "First email", none, none, some "A"⟩),
        ("e2", ⟨"e2", "Second email", none, none, some "B"⟩)]⟩,
      [⟨"t1", ["e1"], 2⟩, ⟨"t2", ["e2"], 2⟩]⟩ :
       EvidenceAwareDrafter).generate_exhibit_list =
    (⟨⟨[("e1", ⟨"e1", "First email", none, none, some "A"⟩),
        ("e2", ⟨"e2", "Second email", none, none, some "B"⟩)]⟩,
      [⟨"t2", ["e2"], 2⟩, ⟨"t1", ["e1"], 2⟩]⟩ :
       EvidenceAwareDrafter).generate_exhibit_list := by
  exact C4_order_independent _ _ rfl (by decide) (by decide)

end LegalAuto
